import Mathlib

/-!
Verification of the MNN `audio_demo.cpp` demo (speech-in / speech-out LLM
session) against its natural-language specification.

The demo source (`src/transformers/llm/engine/demo/audio_demo.cpp`) is glue
code around the `Llm` scheduler.  Pure parts of the demo (prompt building,
wave-file saving, the waveform callback, argument parsing, the stats
printing) are embedded directly from the source.  Parts of the scheduler
that the spec describes but whose implementation is not part of the
repository snapshot (chunk delivery, configuration resolution inside
`Llm::set_config`, the async response ordering) are modelled from the
spec's words; each such definition is marked `Modelled from the spec:` in
its doc comment.
-/

namespace AudioDemo

/-! ## Definitions -/

/-! ### Prompt building (source lines 52–62) -/

/-- The fixed default instruction used by `buildAudioPrompt` when the user
question is empty (source line 60: 请你用中文总结一下这段音频的内容。). -/
def defaultInstruction : String := "请你用中文总结一下这段音频的内容。"

/-- Embedding of `buildAudioPrompt` (source lines 52–62): an `ostringstream`
accumulates `"<audio>" << audioPath << "</audio>"`, then the user question
if it is non-empty, otherwise the fixed default instruction. -/
def buildAudioPrompt (audioPath userQuestion : String) : String :=
  let os := "<audio>" ++ audioPath ++ "</audio>"
  if !userQuestion.isEmpty then os ++ userQuestion else os ++ defaultInstruction

/-- Spec-side prompt shape (spec §4.1): an explicit audio-block marker
wrapping the audio reference, followed by the instruction text; a fixed
default instruction is substituted when the instruction is empty. -/
def promptSpec (audioRef instruction : String) : String :=
  "<audio>" ++ audioRef ++ "</audio>" ++
    (if instruction = "" then defaultInstruction else instruction)

/-- Error taxonomy of spec §7 relevant to prompt building. -/
inductive PromptError where
| invalidPrompt
deriving DecidableEq, Repr

/-- Modelled from the spec: §4.1 claims prompt building "fails only if the
audio reference is empty, in which case it signals an `InvalidPromptError`".
No such check exists in the demo source; this definition follows the spec's
words so it can be compared with the source's `buildAudioPrompt`. -/
def buildAudioPromptSpecE (audioRef instruction : String) :
    Except PromptError String :=
  if audioRef = "" then Except.error PromptError.invalidPrompt
  else Except.ok (promptSpec audioRef instruction)

/-! ### `saveWaveToFile` (source lines 32–46) -/

/-- Console messages emitted by `saveWaveToFile`: `MNN_PRINT` of the skip
notice, `MNN_ERROR` of the save failure, or `MNN_PRINT` of success. -/
inductive LogMsg where
| skipSave
| saveFailed (path : String)
| savedTo (path : String)
deriving DecidableEq, Repr

/-- Result of one `saveWaveToFile` call: the argument of the `AUDIO::save`
invocation if it happened (path, waveform, sample rate), and the console
messages, in order. -/
structure SaveOutcome (α : Type) where
  saveCalled : Option (String × List α × Int)
  log : List LogMsg
deriving DecidableEq, Repr

/-- Embedding of `saveWaveToFile` (source lines 32–46).  The external
`AUDIO::save` is opaque; it is passed in as a function returning its `ok`
flag.  An empty waveform prints the skip notice and returns without calling
`AUDIO::save`; otherwise `AUDIO::save` is called and `MNN_ERROR` or
`MNN_PRINT` reports its outcome. -/
def saveWaveToFile (audioSave : String → List α → Int → Bool)
    (waveform : List α) (outPath : String) (sampleRate : Int) :
    SaveOutcome α :=
  if waveform.isEmpty then
    { saveCalled := none, log := [LogMsg.skipSave] }
  else
    let ok := audioSave outPath waveform sampleRate
    { saveCalled := some (outPath, waveform, sampleRate)
      log := [if ok then LogMsg.savedTo outPath else LogMsg.saveFailed outPath] }

/-! ### The demo's waveform callback (source lines 133–142)

The callback receives `(ptr, size, last_chunk)`, appends the chunk's
samples to the captured `waveform` accumulator, and on `last_chunk` saves
the accumulator to the output file and clears it; it always returns `true`.
Samples are abstract (`α`): the demo never inspects their values. -/

/-- A waveform chunk as delivered to the sink: a buffer of samples plus the
`last_chunk` / `is_terminal` flag (spec §3 WaveformChunk). -/
structure WaveformChunk (α : Type) where
  samples : List α
  isTerminal : Bool
deriving DecidableEq, Repr

/-- The state captured by reference in the demo's lambda: the `waveform`
accumulator, plus (for observation) the list of waveforms handed to
`saveWaveToFile`, in order. -/
structure CallbackState (α : Type) where
  waveform : List α
  savedFiles : List (List α)
deriving DecidableEq, Repr

/-- Embedding of one invocation of the demo's waveform callback (source
lines 134–142): append the chunk samples to the accumulator; if this is the
last chunk, save the accumulator and clear it; return `true` (continue). -/
def wavCallbackStep (st : CallbackState α) (c : WaveformChunk α) :
    CallbackState α × Bool :=
  let w := st.waveform ++ c.samples
  if c.isTerminal then
    ({ waveform := [], savedFiles := st.savedFiles ++ [w] }, true)
  else
    ({ waveform := w, savedFiles := st.savedFiles }, true)

/-- Run the demo's waveform callback over a list of delivered chunks in
delivery order. -/
def runWavCallback (st : CallbackState α) :
    List (WaveformChunk α) → CallbackState α
| [] => st
| c :: cs => runWavCallback (wavCallbackStep st c).1 cs

/-- Declarative view of a delivered chunk sequence: the list of completed
groups (each a maximal run of chunks ending with a terminal chunk) and the
trailing chunks after the last terminal. -/
def splitAfterTerminals :
    List (WaveformChunk α) →
      List (List (WaveformChunk α)) × List (WaveformChunk α)
| [] => ([], [])
| c :: cs =>
  let p := splitAfterTerminals cs
  if c.isTerminal then ([c] :: p.1, p.2)
  else
    match p.1 with
    | [] => ([], c :: p.2)
    | g :: gs => ((c :: g) :: gs, p.2)

/-- The concatenation, in order, of the samples of a list of chunks. -/
def joinSamples (g : List (WaveformChunk α)) : List α :=
  (g.map (fun c => c.samples)).flatten

/-- The callback state predicted from a `splitAfterTerminals` result, given
the initial accumulator and previously saved files. -/
def specState (pending : List α) (saved : List (List α)) :
    List (List (WaveformChunk α)) × List (WaveformChunk α) → CallbackState α
| ([], rest) => ⟨pending ++ joinSamples rest, saved⟩
| (g :: gs, rest) =>
    ⟨joinSamples rest, saved ++ (pending ++ joinSamples g) :: gs.map joinSamples⟩

/-! ### Chunk delivery and cancellation (spec §4.5; scheduler not in the
repository snapshot) -/

/-- Outcome of a response at the streaming interface (spec §4.5/§7):
cancellation via the sink return value is success-with-partial-output, not
an error. -/
inductive ResponseOutcome where
| success
| failed
deriving DecidableEq, Repr

/-- Modelled from the spec: §4.5 — the scheduler delivers vocoded chunks to
the StreamSink in chronological order; each delivered chunk's boolean
return gates continuation: on `false` the scheduler "stop[s] producing
further speech tokens and further chunks" and "treat[s] the response as
completed (not failed)".  The `Llm` scheduler implementing
`setWavformCallback` delivery is not part of the repository snapshot. -/
def deliverChunks (sink : WaveformChunk α → Bool) :
    List (WaveformChunk α) → List (WaveformChunk α) × ResponseOutcome
| [] => ([], ResponseOutcome.success)
| c :: cs =>
  if sink c then
    let p := deliverChunks sink cs
    (c :: p.1, p.2)
  else ([c], ResponseOutcome.success)

/-! ### Configuration resolution (spec §3, §6; `Llm::set_config` not in the
repository snapshot) -/

/-- A configuration map as passed to `Llm::set_config`: an ordered list of
key–value pairs (the JSON object entries in textual order). -/
abbrev ConfigMap : Type := List (String × String)

/-- Modelled from the spec: §6 — configuration is "a flat key→value map";
`Llm::set_config` (not in the repository snapshot) merges the supplied
entries into the current configuration. -/
def mergeConfig (m kvs : ConfigMap) : ConfigMap :=
  m ++ kvs

/-- The resolved value of a key: the value of its last occurrence — "later
keys override earlier ones" (spec §3). -/
def getKey : ConfigMap → String → Option String
| [], _ => none
| (k, v) :: rest, key =>
  match getKey rest key with
  | some w => some w
  | none => if k = key then some v else none

/-- Parse a textual boolean configuration value. -/
def boolOfString (s : String) : Option Bool :=
  if s = "true" then some true
  else if s = "false" then some false
  else none

/-- The effective settings that the recognized configuration keys resolve
to (spec §6); unrecognized keys do not appear here. -/
structure EffectiveSettings where
  tmp_path : Option String
  async : Option Bool
  talker_max_new_tokens : Option Nat
  talker_speaker : Option String
deriving DecidableEq, Repr

/-- The configuration keys the spec names (spec §6). -/
def recognizedKeys : List String :=
  ["tmp_path", "async", "talker_max_new_tokens", "talker_speaker"]

/-- Modelled from the spec: resolution of the recognized keys from a
configuration map; "unknown keys are ignored silently" (spec §6). -/
def resolveSettings (m : ConfigMap) : EffectiveSettings :=
  { tmp_path := getKey m "tmp_path"
    async := (getKey m "async").bind boolOfString
    talker_max_new_tokens := (getKey m "talker_max_new_tokens").bind String.toNat?
    talker_speaker := getKey m "talker_speaker" }

/-- The demo's two `set_config` calls (source lines 109–113):
`{"tmp_path":"tmp"}` and then `{"async":false}`. -/
def demoConfigCalls : List ConfigMap :=
  [[("tmp_path", "tmp")], [("async", "false")]]

/-- Apply a sequence of `set_config` calls to a configuration. -/
def applyCalls (m : ConfigMap) (calls : List ConfigMap) : ConfigMap :=
  calls.foldl mergeConfig m

/-- The configuration after the demo's two `set_config` calls. -/
def demoConfig : ConfigMap := applyCalls ([] : List (String × String)) demoConfigCalls

/-! ### Ordering of text decoding and speech synthesis (source lines
111–113 and 157–160; scheduler not in the repository snapshot) -/

/-- Events of one generation run, for ordering properties: commitment of
text token number `i` to the GenerationTrace, and emission of one speech
token by the Talker. -/
inductive GenEvent where
| textToken (i : Nat)
| speechToken (i : Nat)
deriving DecidableEq, Repr

/-- Modelled from the spec: with `async = false` "the textual response is
guaranteed fully materialized before the call returns" (spec §6); the demo
sets `async:false` precisely so `response` completes text decoding before
returning (source comment at lines 111–113).  `response` therefore
contributes the commit events of all `nText` text tokens, in order. -/
def responseEvents (nText : Nat) : List GenEvent :=
  (List.range nText).map GenEvent.textToken

/-- Modelled from the spec: the demo's flow (source lines 157–160) —
`llm->response(prompt, &std::cout)` runs to completion (async = false) and
only afterwards `llm->generateWavform()` drives the Talker, emitting the
speech tokens listed (in order) in `speech`. -/
def demoMainEvents (nText : Nat) (speech : List Nat) : List GenEvent :=
  responseEvents nText ++ speech.map GenEvent.speechToken

/-! ### SessionContext counters and the RTF guard (source lines 163–171) -/

/-- The `LlmContext` counters the demo reads (source lines 163–170):
`prompt_len`, `gen_seq_len`, `audio_input_s` (seconds of audio input, a
`float` in the source) and `audio_us` (microseconds spent on the audio
path).  The numeric counters are modelled over `ℚ`: the guard and the
division depend only on ordered-field arithmetic, not on rounding. -/
structure SessionContext where
  prompt_len : Nat
  gen_seq_len : Nat
  audio_input_s : ℚ
  audio_us : ℚ
deriving DecidableEq, Repr

/-- Embedding of the RTF part of the demo's stats printing (source lines
167–170): the caller computes `audio_us / 1e6 / audio_input_s` from the two
counters and prints it only under the guard `audio_input_s > 0.0f`;
otherwise no RTF line is printed (`none`). -/
def rtfLine (ctx : SessionContext) : Option ℚ :=
  if 0 < ctx.audio_input_s then
    some (ctx.audio_us / 1000000 / ctx.audio_input_s)
  else none

/-! ### Argument parsing in `main` (source lines 64–92) -/

/-- The run-plan `main` assembles from its arguments (source lines 76–92):
config path = `argv[1]`, audio path = `argv[2]`, output wave = `argv[3]` or
`"output.wav"`, question = `argv[4..]` joined by single spaces. -/
structure RunPlan where
  configPath : String
  audioPath : String
  outWave : String
  question : String
deriving DecidableEq, Repr

/-- `main`'s decision on its arguments: with `argc < 3` it prints the usage
text and returns 0 (source lines 65–75), never reaching executor creation
or model loading; otherwise it proceeds with the parsed plan. -/
inductive MainAction where
| usage (exitCode : Int)
| run (plan : RunPlan)
deriving DecidableEq, Repr

/-- Embedding of the question-joining loop (source lines 86–90):
`for (i = 4; i < argc; ++i) { if (i > 4) q << " "; q << argv[i]; }` — the
first remaining argument is appended bare (`i = 4`), every later one is
preceded by a single space (`i > 4`). -/
def joinArgsAux : Bool → List String → String → String
| _, [], q => q
| first, a :: rest, q =>
    joinArgsAux false rest (if first then q ++ a else q ++ " " ++ a)

/-- Embedding of `main`'s argument handling (source lines 64–92).  `argv`
includes the program name at position 0, so `argv.length = argc`. -/
def parseArgs (argv : List String) : MainAction :=
  if argv.length < 3 then MainAction.usage 0
  else
    let configPath := argv.getD 1 ""
    let audioPath := argv.getD 2 ""
    let outWave := if 4 ≤ argv.length then argv.getD 3 "" else "output.wav"
    let question :=
      if 5 ≤ argv.length then joinArgsAux true (argv.drop 4) "" else ""
    MainAction.run ⟨configPath, audioPath, outWave, question⟩

/-- Coarse event outline of `main`'s control flow (source lines 64–162):
the usage branch returns before the executor is created; the run branch
creates the executor, loads the model and issues the response. -/
inductive MainEvent where
| printUsage
| createExecutor
| loadModel
| respond
deriving DecidableEq, Repr

/-- The events `main` performs, by branch (source lines 65–162). -/
def mainEventsOutline (argv : List String) : List MainEvent :=
  match parseArgs argv with
  | MainAction.usage _ => [MainEvent.printUsage]
  | MainAction.run _ =>
      [MainEvent.createExecutor, MainEvent.loadModel, MainEvent.respond]

/-- Space-joined concatenation of a list of strings (the claim's reading of
the joining loop). -/
def spaceJoined : List String → String
| [] => ""
| [a] => a
| a :: b :: rest => a ++ " " ++ spaceJoined (b :: rest)

/-- Every element prefixed by a single space and concatenated; the
accumulator shape of the joining loop after its first iteration. -/
def spaceTail : List String → String
| [] => ""
| a :: rest => " " ++ a ++ spaceTail rest

/-! ## Theorems -/

theorem buildAudioPrompt_eq_promptSpec (a q : String) :
    buildAudioPrompt a q = promptSpec a q := by
  unfold buildAudioPrompt promptSpec
  by_cases h : q = ""
  · simp [h, String.isEmpty_iff]
  · simp [h, String.isEmpty_iff]

/-- C2: for every audio reference and every optional user instruction, the
prompt builder is a pure function producing a single structured prompt: the
audio-block marker wrapping the audio reference, followed by the instruction
text, with the fixed default instruction substituted when the instruction is
empty.  Stated as a refinement: the source function `buildAudioPrompt`
coincides with the spec-side shape `promptSpec` on all inputs. -/
theorem C2_prompt_builder_shape (audioRef instruction : String) :
    buildAudioPrompt audioRef instruction =
      "<audio>" ++ audioRef ++ "</audio>" ++
        (if instruction = "" then defaultInstruction else instruction) :=
  buildAudioPrompt_eq_promptSpec audioRef instruction

/-- C1 counterexample: the claim says prompt building with an empty audio
reference signals an `InvalidPromptError`; the source's `buildAudioPrompt`
has no failure path and, at the concrete input (audio reference `""`,
instruction `"hi"`), returns the ordinary prompt `"<audio></audio>hi"`,
while the spec-modelled builder errors — the code diverges from the claim
at this input. -/
theorem C1_empty_audio_ref_counterexample :
    buildAudioPrompt "" "hi" = "<audio></audio>hi" ∧
      buildAudioPromptSpecE "" "hi" =
        Except.error PromptError.invalidPrompt := by
  constructor
  · rfl
  · rfl

/-- C1 amended: prompt building in the demo never fails.  For every
instruction, an empty audio reference still yields a normal prompt — an
empty audio block followed by the instruction (or the fixed default) — and
no `InvalidPromptError` is ever signalled, so generation is not prevented
by prompt building. -/
theorem C1_empty_audio_ref_no_failure (instruction : String) :
    buildAudioPrompt "" instruction =
      "<audio></audio>" ++
        (if instruction = "" then defaultInstruction else instruction) :=
  buildAudioPrompt_eq_promptSpec "" instruction

/-- C8: `saveWaveToFile` on an empty waveform returns without invoking
`AUDIO::save` and reports no error (only the skip notice); `AUDIO::save` is
invoked exactly when the waveform is non-empty. -/
theorem C8_saveWaveToFile_empty_skips (audioSave : String → List α → Int → Bool)
    (waveform : List α) (outPath : String) (sampleRate : Int) :
    (waveform = [] →
      (saveWaveToFile audioSave waveform outPath sampleRate).saveCalled = none ∧
      (saveWaveToFile audioSave waveform outPath sampleRate).log = [LogMsg.skipSave]) ∧
    ((saveWaveToFile audioSave waveform outPath sampleRate).saveCalled ≠ none ↔
      waveform ≠ []) := by
  unfold saveWaveToFile
  constructor
  · intro h
    simp [h]
  · by_cases h : waveform = []
    · simp [h]
    · simp [h, List.isEmpty_iff]

/-- C8 witness: concrete evaluations of `C8_saveWaveToFile_empty_skips` at an
empty and a singleton waveform over integer samples. -/
theorem C8_saveWaveToFile_empty_skips_witness :
    ((saveWaveToFile (fun _ _ _ => true) ([] : List Int) "out.wav" 24000).saveCalled
        = none ∧
      (saveWaveToFile (fun _ _ _ => true) ([] : List Int) "out.wav" 24000).log
        = [LogMsg.skipSave]) ∧
    ((saveWaveToFile (fun _ _ _ => true) ([1] : List Int) "out.wav" 24000).saveCalled
        ≠ none) := by
  refine ⟨(C8_saveWaveToFile_empty_skips (fun _ _ _ => true) [] "out.wav" 24000).1 rfl,
    ((C8_saveWaveToFile_empty_skips (fun _ _ _ => true) [1] "out.wav" 24000).2).mpr ?_⟩
  decide

theorem joinSamples_cons (c : WaveformChunk α) (g : List (WaveformChunk α)) :
    joinSamples (c :: g) = c.samples ++ joinSamples g := by
  simp [joinSamples]

theorem runWavCallback_split (cs : List (WaveformChunk α))
    (pending : List α) (saved : List (List α)) :
    runWavCallback ⟨pending, saved⟩ cs =
      specState pending saved (splitAfterTerminals cs) := by
  induction cs generalizing pending saved with
  | nil => simp [runWavCallback, splitAfterTerminals, specState, joinSamples]
  | cons c cs ih =>
    rw [runWavCallback]
    cases hterm : c.isTerminal with
    | true =>
      rw [show (wavCallbackStep ⟨pending, saved⟩ c).1 =
            ⟨[], saved ++ [pending ++ c.samples]⟩ by
          simp [wavCallbackStep, hterm]]
      rw [ih]
      rcases hsplit : splitAfterTerminals cs with ⟨groups, rest⟩
      cases groups with
      | nil =>
        simp [splitAfterTerminals, hsplit, hterm, specState, joinSamples]
      | cons g gs =>
        simp [splitAfterTerminals, hsplit, hterm, specState, joinSamples_cons,
          joinSamples]
    | false =>
      rw [show (wavCallbackStep ⟨pending, saved⟩ c).1 =
            ⟨pending ++ c.samples, saved⟩ by
          simp [wavCallbackStep, hterm]]
      rw [ih]
      rcases hsplit : splitAfterTerminals cs with ⟨groups, rest⟩
      cases groups with
      | nil =>
        simp [splitAfterTerminals, hsplit, hterm, specState, joinSamples_cons]
      | cons g gs =>
        simp [splitAfterTerminals, hsplit, hterm, specState, joinSamples_cons]

/-- C9: running the demo's waveform callback from an empty accumulator over
any delivered chunk sequence, the files saved are exactly, in order, the
concatenations of the chunk samples of each completed group (all samples
delivered since the previous terminal chunk, in delivery order), and the
accumulator left behind holds exactly the samples delivered after the last
terminal chunk — so samples from one response never leak into the next
saved file. -/
theorem C9_callback_accumulates_and_saves_per_response
    (cs : List (WaveformChunk α)) :
    (runWavCallback ⟨[], []⟩ cs).savedFiles =
        (splitAfterTerminals cs).1.map joinSamples ∧
      (runWavCallback ⟨[], []⟩ cs).waveform =
        joinSamples (splitAfterTerminals cs).2 := by
  rw [runWavCallback_split]
  rcases hsplit : splitAfterTerminals cs with ⟨groups, rest⟩
  cases groups with
  | nil => simp [specState]
  | cons g gs => simp [specState]

/-- On a chunk list whose members are all non-terminal, no group is
completed: everything stays in the trailing part. -/
theorem splitAfterTerminals_all_nonterminal (l : List (WaveformChunk α))
    (h : ∀ c ∈ l, c.isTerminal = false) :
    splitAfterTerminals l = ([], l) := by
  induction l with
  | nil => rfl
  | cons c cs ih =>
    have hc : c.isTerminal = false := h c (List.mem_cons_self c cs)
    have ihcs := ih (fun c' hc' => h c' (List.mem_cons_of_mem c hc'))
    simp [splitAfterTerminals, hc, ihcs]

/-- A stream of non-terminal chunks closed by one terminal chunk forms a
single completed group with no trailing chunks. -/
theorem splitAfterTerminals_single_group (pre : List (WaveformChunk α))
    (c : WaveformChunk α) (hterm : c.isTerminal = true)
    (hpre : ∀ c' ∈ pre, c'.isTerminal = false) :
    splitAfterTerminals (pre ++ [c]) = ([pre ++ [c]], []) := by
  induction pre with
  | nil => simp [splitAfterTerminals, hterm]
  | cons p pre ih =>
    have hp : p.isTerminal = false := hpre p (List.mem_cons_self p pre)
    have ihp := ih (fun c' hc' => hpre c' (List.mem_cons_of_mem p hc'))
    simp [splitAfterTerminals, hp, ihp]

/-- C3: on a completed, non-cancelled response — a delivered chunk sequence
in which exactly the last chunk is terminal — the demo's waveform callback
saves exactly one file, that save happens on the last chunk (no file is
saved while processing the non-terminal part), and the saved file is the
concatenation of all the response's samples. -/
theorem C3_single_terminal_chunk_single_save
    (cs pre : List (WaveformChunk α)) (c : WaveformChunk α)
    (hcs : cs = pre ++ [c]) (hterm : c.isTerminal = true)
    (hpre : ∀ c' ∈ pre, c'.isTerminal = false) :
    (runWavCallback ⟨[], []⟩ cs).savedFiles.length = 1 ∧
      (runWavCallback ⟨[], []⟩ pre).savedFiles = [] ∧
      (runWavCallback ⟨[], []⟩ cs).savedFiles = [joinSamples cs] := by
  subst hcs
  refine ⟨?_, ?_, ?_⟩
  · rw [runWavCallback_split, splitAfterTerminals_single_group pre c hterm hpre]
    simp [specState]
  · rw [runWavCallback_split, splitAfterTerminals_all_nonterminal pre hpre]
    simp [specState]
  · rw [runWavCallback_split, splitAfterTerminals_single_group pre c hterm hpre]
    simp [specState]

/-- C3 witness: a concrete two-chunk response (only the last chunk
terminal) over integer samples, via `C3_single_terminal_chunk_single_save`. -/
theorem C3_single_terminal_chunk_single_save_witness :
    (runWavCallback ⟨[], []⟩
        [WaveformChunk.mk ([1, 2] : List Int) false,
          WaveformChunk.mk [3] true]).savedFiles.length = 1 ∧
      (runWavCallback ⟨[], []⟩
        [WaveformChunk.mk ([1, 2] : List Int) false]).savedFiles = [] ∧
      (runWavCallback ⟨[], []⟩
        [WaveformChunk.mk ([1, 2] : List Int) false,
          WaveformChunk.mk [3] true]).savedFiles =
        [joinSamples
          [WaveformChunk.mk ([1, 2] : List Int) false,
            WaveformChunk.mk [3] true]] :=
  C3_single_terminal_chunk_single_save _
    [WaveformChunk.mk [1, 2] false] (WaveformChunk.mk [3] true)
    rfl rfl (by decide)

/-- If the sink accepts the chunks before position `k` and rejects the
chunk at position `k` (0-based), the scheduler delivers exactly the first
`k + 1` chunks and the response completes successfully. -/
theorem deliverChunks_stops (sink : WaveformChunk α → Bool)
    (cs : List (WaveformChunk α)) :
    ∀ (k : Nat) (hk : k < cs.length),
      (∀ j (hj : j < k), sink (cs.get ⟨j, hj.trans hk⟩) = true) →
      sink (cs.get ⟨k, hk⟩) = false →
      deliverChunks sink cs = (cs.take (k + 1), ResponseOutcome.success) := by
  induction cs with
  | nil =>
    intro k hk
    exact absurd hk (by simp)
  | cons c cs ih =>
    intro k hk hprev hstop
    cases k with
    | zero =>
      have hc : sink c = false := hstop
      simp [deliverChunks, hc]
    | succ j =>
      have hc : sink c = true := hprev 0 (Nat.succ_pos j)
      have hk' : j < cs.length := Nat.lt_of_succ_lt_succ hk
      have hprev' : ∀ i (hi : i < j), sink (cs.get ⟨i, hi.trans hk'⟩) = true :=
        fun i hi => hprev (i + 1) (Nat.succ_lt_succ hi)
      have hstop' : sink (cs.get ⟨j, hk'⟩) = false := hstop
      simp [deliverChunks, hc, ih j hk' hprev' hstop']

/-- C5: if the StreamSink returns `false` on chunk `k`, no chunk `k + 1` is
ever delivered — delivery stops after exactly chunks `0..k` — and the
request completes as success-with-partial-output, not as an error; a sink
that always returns `true` receives every chunk and never triggers
cancellation; and the demo's callback does always return `true`. -/
theorem C5_sink_false_cancels_as_success :
    (∀ (sink : WaveformChunk α → Bool) (cs : List (WaveformChunk α))
      (k : Nat) (hk : k < cs.length),
      (∀ j (hj : j < k), sink (cs.get ⟨j, hj.trans hk⟩) = true) →
      sink (cs.get ⟨k, hk⟩) = false →
      deliverChunks sink cs = (cs.take (k + 1), ResponseOutcome.success)) ∧
    (∀ (sink : WaveformChunk α → Bool) (cs : List (WaveformChunk α)),
      (∀ c, sink c = true) →
      deliverChunks sink cs = (cs, ResponseOutcome.success)) ∧
    (∀ (st : CallbackState α) (c : WaveformChunk α),
      (wavCallbackStep st c).2 = true) := by
  refine ⟨fun sink cs => deliverChunks_stops sink cs, ?_, ?_⟩
  · intro sink cs hall
    induction cs with
    | nil => rfl
    | cons c cs ih => simp [deliverChunks, hall c, ih]
  · intro st c
    cases hc : c.isTerminal <;> simp [wavCallbackStep, hc]

/-- C5 witness: a concrete sink rejecting the empty chunk at position 1
stops delivery after two chunks with a successful outcome; an
always-`true` sink receives everything; the demo callback returns `true`
on a concrete terminal chunk.  All via `C5_sink_false_cancels_as_success`. -/
theorem C5_sink_false_cancels_as_success_witness :
    deliverChunks (fun c => !c.samples.isEmpty)
        [WaveformChunk.mk ([1] : List Int) false, WaveformChunk.mk [] false,
          WaveformChunk.mk [2] true] =
      ([WaveformChunk.mk ([1] : List Int) false, WaveformChunk.mk [] false,
          WaveformChunk.mk [2] true].take 2,
        ResponseOutcome.success) ∧
    deliverChunks (fun _ => true)
        [WaveformChunk.mk ([3] : List Int) true] =
      ([WaveformChunk.mk ([3] : List Int) true], ResponseOutcome.success) ∧
    (wavCallbackStep (⟨[], []⟩ : CallbackState Int)
        (WaveformChunk.mk [5] true)).2 = true := by
  refine ⟨?_, ?_, ?_⟩
  · have hk : (1 : Nat) <
        ([WaveformChunk.mk ([1] : List Int) false, WaveformChunk.mk [] false,
          WaveformChunk.mk [2] true]).length := by decide
    exact (C5_sink_false_cancels_as_success (α := Int)).1
      (fun c => !c.samples.isEmpty)
      [WaveformChunk.mk [1] false, WaveformChunk.mk [] false,
        WaveformChunk.mk [2] true]
      1 hk
      (fun j hj => by
        have hj0 : j = 0 := Nat.lt_one_iff.mp hj
        subst hj0
        rfl)
      rfl
  · exact (C5_sink_false_cancels_as_success (α := Int)).2.1
      (fun _ => true) _ (fun _ => rfl)
  · exact (C5_sink_false_cancels_as_success (α := Int)).2.2 ⟨[], []⟩
      (WaveformChunk.mk [5] true)

/-- Resolution over a merged configuration: the appended entries are looked
up first (they are later, so they override), and only on a miss does the
older configuration answer. -/
theorem getKey_merge (m l : ConfigMap) (key : String) :
    getKey (mergeConfig m l) key =
      match getKey l key with
      | some w => some w
      | none => getKey m key := by
  induction m with
  | nil =>
    show getKey ([] ++ l) key = _
    rw [List.nil_append]
    cases h : getKey l key <;> simp [h, getKey]
  | cons p m ih =>
    rcases p with ⟨k, v⟩
    show getKey ((k, v) :: (m ++ l)) key = _
    rw [getKey]
    rw [show getKey (m ++ l) key =
        (match getKey l key with
          | some w => some w
          | none => getKey m key) from ih]
    cases h : getKey l key <;> simp [h, getKey]

/-- Merging the same entries a second time changes no resolved key. -/
theorem getKey_merge_idem (m l : ConfigMap) (key : String) :
    getKey (mergeConfig (mergeConfig m l) l) key =
      getKey (mergeConfig m l) key := by
  rw [getKey_merge (mergeConfig m l) l key]
  cases h : getKey l key with
  | none => simp
  | some w =>
    rw [getKey_merge m l key]
    simp [h]

/-- Merging the same entries a second time leaves the effective settings
unchanged. -/
theorem resolveSettings_merge_idem (m l : ConfigMap) :
    resolveSettings (mergeConfig (mergeConfig m l) l) =
      resolveSettings (mergeConfig m l) := by
  simp [resolveSettings, getKey_merge_idem]

/-- Merging an unrecognized key leaves every effective setting unchanged. -/
theorem resolveSettings_unknown_key (m : ConfigMap) (k v : String)
    (hk : k ∉ recognizedKeys) :
    resolveSettings (mergeConfig m [(k, v)]) = resolveSettings m := by
  simp [recognizedKeys] at hk
  obtain ⟨h1, h2, h3, h4⟩ := hk
  simp [resolveSettings, getKey_merge, getKey, h1, h2, h3, h4]

/-- C7: configuration resolution is idempotent — merging the same key–value
map a second time resolves to identical effective settings; a merged key's
value overrides any earlier occurrence of the key; unknown keys are ignored
rather than fatal (resolution is total and the effective settings are
unchanged); and re-applying the demo's two `set_config` calls leaves the
demo's effective configuration unchanged. -/
theorem C7_config_resolution_idempotent :
    (∀ m kvs : ConfigMap,
      resolveSettings (mergeConfig (mergeConfig m kvs) kvs) =
        resolveSettings (mergeConfig m kvs)) ∧
    (∀ (m : ConfigMap) (k v : String),
      getKey (mergeConfig m [(k, v)]) k = some v) ∧
    (∀ (m : ConfigMap) (k v : String), k ∉ recognizedKeys →
      resolveSettings (mergeConfig m [(k, v)]) = resolveSettings m) ∧
    resolveSettings (applyCalls demoConfig demoConfigCalls) =
      resolveSettings demoConfig := by
  refine ⟨fun m kvs => resolveSettings_merge_idem m kvs, ?_,
    resolveSettings_unknown_key, ?_⟩
  · intro m k v
    rw [getKey_merge]
    simp [getKey]
  · rfl

/-- C7 witness: concrete instances of `C7_config_resolution_idempotent` —
re-merging `{"async":"true"}`, overriding `"async"`, and merging the
unrecognized key `"zzz"`. -/
theorem C7_config_resolution_idempotent_witness :
    resolveSettings
        (mergeConfig (mergeConfig [("a", "1")] [("async", "true")])
          [("async", "true")]) =
      resolveSettings (mergeConfig [("a", "1")] [("async", "true")]) ∧
    getKey (mergeConfig [("async", "false")] [("async", "true")]) "async" =
      some "true" ∧
    resolveSettings (mergeConfig [("async", "true")] [("zzz", "9")]) =
      resolveSettings [("async", "true")] := by
  refine ⟨C7_config_resolution_idempotent.1 _ _,
    C7_config_resolution_idempotent.2.1 _ "async" "true",
    C7_config_resolution_idempotent.2.2.1 _ "zzz" "9" ?_⟩
  decide

/-- With `async = false`, `response` commits text token `t` at event index
`t` of the demo's event sequence, for every `t` below the trace length. -/
theorem demoMainEvents_text (nText : Nat) (speech : List Nat) (t : Nat)
    (ht : t < nText) :
    (demoMainEvents nText speech)[t]? = some (GenEvent.textToken t) := by
  unfold demoMainEvents responseEvents
  have hlen : t < ((List.range nText).map GenEvent.textToken).length := by
    simpa using ht
  simp [List.getElem?_append, hlen, List.getElem?_map, List.getElem?_range, ht]

/-- Any speech-token emission in the demo's event sequence sits at an index
no smaller than the full text-trace length. -/
theorem demoMainEvents_speech_index (nText : Nat) (speech : List Nat)
    (i s : Nat)
    (h : (demoMainEvents nText speech)[i]? = some (GenEvent.speechToken s)) :
    nText ≤ i := by
  by_contra hlt
  push_neg at hlt
  rw [demoMainEvents_text nText speech i hlt] at h
  simp at h

/-- C4: the demo's configuration resolves `async` to `false`, so the
textual response is fully materialized by `response` before
`generateWavform` runs; consequently, in the demo's event sequence every
text token of the trace is committed strictly before any speech token is
emitted — a speech token is never emitted before its text token exists in
the GenerationTrace. -/
theorem C4_async_false_causal_order :
    (resolveSettings demoConfig).async = some false ∧
    ∀ (nText : Nat) (speech : List Nat) (i s : Nat),
      (demoMainEvents nText speech)[i]? = some (GenEvent.speechToken s) →
      ∀ t, t < nText → ∃ j, j < i ∧
        (demoMainEvents nText speech)[j]? = some (GenEvent.textToken t) := by
  refine ⟨rfl, ?_⟩
  intro nText speech i s hi t ht
  exact ⟨t, lt_of_lt_of_le ht (demoMainEvents_speech_index nText speech i s hi),
    demoMainEvents_text nText speech t ht⟩

/-- C4 witness: with a one-token trace and one speech emission, the speech
event at index 1 is preceded by the commit of text token 0, via
`C4_async_false_causal_order`. -/
theorem C4_async_false_causal_order_witness :
    (resolveSettings demoConfig).async = some false ∧
    ∃ j, j < 1 ∧ (demoMainEvents 1 [7])[j]? = some (GenEvent.textToken 0) :=
  ⟨C4_async_false_causal_order.1,
    C4_async_false_causal_order.2 1 [7] 1 7 rfl 0 (by decide)⟩

/-- C6: the RTF is computed by the caller from the two SessionContext
counters alone — it is a function of `audio_us` and `audio_input_s` only,
stored in no `SessionContext` field — and the division runs only under the
guard `audio_input_s > 0`: whenever an RTF value is produced the divisor is
strictly positive and the value satisfies
`r * audio_input_s = audio_us / 1e6`, so the computation never divides by
zero. -/
theorem C6_rtf_guarded_division :
    (∀ (ctx : SessionContext) (r : ℚ), rtfLine ctx = some r →
      0 < ctx.audio_input_s ∧
        r * ctx.audio_input_s = ctx.audio_us / 1000000) ∧
    (∀ ctx ctx' : SessionContext, ctx.audio_us = ctx'.audio_us →
      ctx.audio_input_s = ctx'.audio_input_s → rtfLine ctx = rtfLine ctx') := by
  constructor
  · intro ctx r hr
    unfold rtfLine at hr
    by_cases h : 0 < ctx.audio_input_s
    · rw [if_pos h] at hr
      refine ⟨h, ?_⟩
      have hrv : r = ctx.audio_us / 1000000 / ctx.audio_input_s :=
        (Option.some.inj hr).symm
      rw [hrv, div_mul_cancel₀ _ (ne_of_gt h)]
    · rw [if_neg h] at hr
      exact absurd hr (by simp)
  · intro ctx ctx' hus hs
    unfold rtfLine
    rw [hus, hs]

/-- C6 witness: on the counters (5 s of input, 2 000 000 µs of processing)
the RTF line is produced with positive divisor and value 2/5, via
`C6_rtf_guarded_division`. -/
theorem C6_rtf_guarded_division_witness :
    0 < (SessionContext.mk 5 40 5 2000000).audio_input_s ∧
      (2 / 5 : ℚ) * (SessionContext.mk 5 40 5 2000000).audio_input_s =
        (SessionContext.mk 5 40 5 2000000).audio_us / 1000000 :=
  C6_rtf_guarded_division.1 (SessionContext.mk 5 40 5 2000000) (2 / 5)
    (by norm_num [rtfLine])

/-- After its first iteration, the joining loop appends every remaining
argument preceded by a space. -/
theorem joinArgsAux_false_eq (l : List String) (q : String) :
    joinArgsAux false l q = q ++ spaceTail l := by
  induction l generalizing q with
  | nil => simp [joinArgsAux, spaceTail, String.append_empty]
  | cons a rest ih =>
    simp [joinArgsAux, spaceTail, ih, String.append_assoc]

/-- The space-joined concatenation, unfolded at the head. -/
theorem spaceJoined_cons (a : String) (rest : List String) :
    spaceJoined (a :: rest) = a ++ spaceTail rest := by
  induction rest generalizing a with
  | nil => simp [spaceJoined, spaceTail, String.append_empty]
  | cons b r ih =>
    rw [spaceJoined, ih b]
    simp [spaceTail, String.append_assoc]

/-- The source's joining loop computes the space-joined concatenation. -/
theorem joinArgsAux_true_eq (l : List String) :
    joinArgsAux true l "" = spaceJoined l := by
  cases l with
  | nil => rfl
  | cons a rest =>
    rw [joinArgsAux, spaceJoined_cons]
    simp [joinArgsAux_false_eq, String.empty_append]

/-- C10: with fewer than two positional arguments (`argc < 3`), `main`
prints the usage text and returns exit code 0, reaching none of the
executor-creation, model-loading or response steps; with four or more
positional arguments (`argc ≥ 5`) the parsed plan's instruction is the
space-joined concatenation of `argv[4]` through `argv[argc − 1]`. -/
theorem C10_usage_and_question_join (argv : List String) :
    (argv.length < 3 →
      parseArgs argv = MainAction.usage 0 ∧
      mainEventsOutline argv = [MainEvent.printUsage] ∧
      MainEvent.createExecutor ∉ mainEventsOutline argv ∧
      MainEvent.loadModel ∉ mainEventsOutline argv) ∧
    (5 ≤ argv.length →
      ∃ plan, parseArgs argv = MainAction.run plan ∧
        plan.question = spaceJoined (argv.drop 4)) := by
  constructor
  · intro h
    have hp : parseArgs argv = MainAction.usage 0 := by
      unfold parseArgs
      rw [if_pos h]
    refine ⟨hp, ?_, ?_, ?_⟩ <;> simp [mainEventsOutline, hp]
  · intro h5
    have h3 : ¬ argv.length < 3 := by omega
    refine ⟨⟨argv.getD 1 "", argv.getD 2 "",
      if 4 ≤ argv.length then argv.getD 3 "" else "output.wav",
      if 5 ≤ argv.length then joinArgsAux true (argv.drop 4) "" else ""⟩,
      ?_, ?_⟩
    · unfold parseArgs
      rw [if_neg h3]
    · show (if 5 ≤ argv.length then joinArgsAux true (argv.drop 4) "" else "")
        = spaceJoined (argv.drop 4)
      rw [if_pos h5, joinArgsAux_true_eq]

/-- C10 witness: one argument short of the minimum yields the usage action;
six arguments yield a run whose question is `"ask me"`, via
`C10_usage_and_question_join`. -/
theorem C10_usage_and_question_join_witness :
    parseArgs ["prog", "cfg"] = MainAction.usage 0 ∧
    ∃ plan,
      parseArgs ["prog", "cfg.json", "in.wav", "out.wav", "ask", "me"] =
        MainAction.run plan ∧
      plan.question =
        spaceJoined
          (["prog", "cfg.json", "in.wav", "out.wav", "ask", "me"].drop 4) :=
  ⟨((C10_usage_and_question_join ["prog", "cfg"]).1 (by decide)).1,
    (C10_usage_and_question_join
      ["prog", "cfg.json", "in.wav", "out.wav", "ask", "me"]).2 (by decide)⟩

end AudioDemo
